import Mathlib

/-!
Verification of the centrifuge/protocol deployment tooling
(`script/deploy/lib/verifier.py` and `script/deploy/lib/release.py`)
against its natural-language specification.

Machine integers do not overflow in the Python source, so block numbers,
ages and timestamps are modelled as `Nat`.  The fractional threshold
`max(10000, median * 0.1)` is compared exactly by scaling both sides by 10.
-/

namespace Centrifuge

/-! ### Start-block outlier detection
(`ContractVerifier._calculate_start_block_with_outlier_detection`) -/

/-- `gap > max(10000, median * 0.1)`, compared exactly over the integers by
scaling both sides by 10. -/
def gapExceedsThreshold (median gap : Nat) : Bool :=
  10 * gap > max 100000 median

/-- The scan of consecutive pairs in `sortedBlocks`, keeping the index of the
last gap exceeding the threshold (`last_large_gap_index` loop, verifier.py
lines 479-483; `none` plays the role of the sentinel `-1`). -/
def lastLargeGapIndex (sortedBlocks : List Nat) (median : Nat) : Option Nat :=
  (List.range (sortedBlocks.length - 1)).foldl
    (fun acc i =>
      if gapExceedsThreshold median (sortedBlocks.getD (i + 1) 0 - sortedBlocks.getD i 0)
      then some i else acc)
    none

/-- `ContractVerifier._calculate_start_block_with_outlier_detection`
(verifier.py lines 446-491): empty input gives `None`; a singleton returns its
element; with the list sorted ascending, at most two elements return the head;
otherwise the median is `sorted[len // 2]`, and if a last large gap exists the
minimum of the blocks after it is returned, else the head of the sorted list. -/
def calculateStartBlockWithOutlierDetection (blockNumbers : List Nat) : Option Nat :=
  match blockNumbers with
  | [] => none
  | [b] => some b
  | _ :: _ :: _ =>
    let sortedBlocks := List.insertionSort (· ≤ ·) blockNumbers
    if sortedBlocks.length ≤ 2 then
      sortedBlocks.head?
    else
      let median := sortedBlocks.getD (sortedBlocks.length / 2) 0
      match lastLargeGapIndex sortedBlocks median with
      | some i => (sortedBlocks.drop (i + 1)).min?
      | none => sortedBlocks.head?

/-- The start-block computation as the specification words it: the minimum for
lists of at most two elements; otherwise, with the list sorted and the median
taken, the minimum of the blocks strictly after the last gap exceeding
`max(10000, median * 0.1)` — the last qualifying gap taken as the largest
qualifying index — and the overall minimum when no gap qualifies. -/
def specStartBlock (l : List Nat) : Option Nat :=
  if l.length ≤ 2 then l.min?
  else
    let sorted := List.insertionSort (· ≤ ·) l
    let median := sorted.getD (sorted.length / 2) 0
    let qualifying := (List.range (sorted.length - 1)).filter
      (fun i => gapExceedsThreshold median (sorted.getD (i + 1) 0 - sorted.getD i 0))
    match qualifying.max? with
    | some i => (sorted.drop (i + 1)).min?
    | none => l.min?

/-- A left fold recording the last index of `List.range n` satisfying `p`
computes the maximum of the indices satisfying `p`. -/
theorem foldl_lastSome_range (p : Nat → Bool) (n : Nat) :
    (List.range n).foldl (fun acc i => if p i then some i else acc) none
      = ((List.range n).filter p).max? := by
  induction n with
  | zero => rfl
  | succ n ih =>
    rw [List.range_succ, List.foldl_append, List.filter_append]
    by_cases h : p n
    · simp only [List.foldl, h, if_pos, List.filter_cons, List.filter_nil]
      symm
      rw [List.max?_eq_some_iff']
      constructor
      · simp
      · intro b hb
        rcases List.mem_append.1 hb with hb | hb
        · exact Nat.le_of_lt (List.mem_range.1 (List.mem_of_mem_filter hb))
        · simp only [List.mem_singleton] at hb; omega
    · simp only [List.foldl, h, if_neg, List.filter_cons, List.filter_nil, Bool.false_eq_true,
        not_false_eq_true, List.append_nil]
      exact ih

/-- `lastLargeGapIndex` returns exactly the largest qualifying gap index. -/
theorem lastLargeGapIndex_eq_filter_max (s : List Nat) (m : Nat) :
    lastLargeGapIndex s m
      = ((List.range (s.length - 1)).filter
          (fun i => gapExceedsThreshold m (s.getD (i + 1) 0 - s.getD i 0))).max? :=
  foldl_lastSome_range _ _

/-- Folding `min` over a list of elements all at least `a` returns `a`. -/
theorem foldl_min_of_le (t : List Nat) : ∀ a : Nat, (∀ x ∈ t, a ≤ x) → t.foldl min a = a := by
  induction t with
  | nil => intro a _; rfl
  | cons x t ih =>
    intro a h
    have hax : a ≤ x := h x (List.mem_cons_self x t)
    simp only [List.foldl_cons, Nat.min_eq_left hax]
    exact ih a (fun y hy => h y (List.mem_cons_of_mem x hy))

/-- The head of the insertion sort of a list is its minimum. -/
theorem head?_insertionSort_eq_min? (l : List Nat) :
    (List.insertionSort (· ≤ ·) l).head? = l.min? := by
  have hperm := List.perm_insertionSort (· ≤ ·) l
  have hsort := List.sorted_insertionSort (· ≤ ·) l
  rcases hs : List.insertionSort (· ≤ ·) l with _ | ⟨a, t⟩
  · rw [hs] at hperm
    rw [List.nil_perm.1 hperm]
    rfl
  · rw [hs] at hperm hsort
    have hrel := List.rel_of_sorted_cons hsort
    symm
    rw [List.head?_cons, List.min?_eq_some_iff']
    constructor
    · exact hperm.mem_iff.1 (List.mem_cons_self a t)
    · intro b hb
      rcases List.mem_cons.1 (hperm.mem_iff.2 hb) with hb' | hb'
      · omega
      · exact hrel b hb'

/-- Claim C1: for every non-empty list of block numbers, the start-block
computation returns the minimum when the list has at most two elements, and
otherwise follows the sorted-median gap-threshold rule of the spec, returning
the minimum after the last qualifying gap (or the overall minimum when no gap
qualifies); in particular `[42, 100050, 100051, 100052]` yields `100050` and
`[100050, 100051]` yields `100050`. -/
theorem calculate_start_block_matches_spec :
    (∀ l : List Nat, l ≠ [] →
      calculateStartBlockWithOutlierDetection l = specStartBlock l)
    ∧ calculateStartBlockWithOutlierDetection [42, 100050, 100051, 100052] = some 100050
    ∧ calculateStartBlockWithOutlierDetection [100050, 100051] = some 100050 := by
  refine ⟨?_, by decide, by decide⟩
  intro l hl
  match l with
  | [] => exact absurd rfl hl
  | [b] =>
    simp [calculateStartBlockWithOutlierDetection, specStartBlock, List.min?]
  | a :: b :: t =>
    simp only [calculateStartBlockWithOutlierDetection, specStartBlock,
      lastLargeGapIndex_eq_filter_max, List.length_insertionSort]
    by_cases hlen : (a :: b :: t).length ≤ 2
    · simp only [hlen, if_pos]
      exact head?_insertionSort_eq_min? _
    · simp only [hlen, if_neg, not_false_eq_true]
      split
      next i hX => rfl
      next hX => exact head?_insertionSort_eq_min? _

/-- Witness for `calculate_start_block_matches_spec` at `[5, 6, 7]`. -/
theorem calculate_start_block_matches_spec_witness :
    calculateStartBlockWithOutlierDetection [5, 6, 7] = specStartBlock [5, 6, 7] :=
  calculate_start_block_matches_spec.1 [5, 6, 7] (by decide)

/-! ### Contract-record merge (`ContractVerifier.update_network_config`, per contract) -/

/-- A contract entry in the new config format: address plus the optional
block number and transaction hash (`null` modelled as `none`). -/
structure ContractRecord where
  address : String
  blockNumber : Option Nat
  txHash : Option String
deriving DecidableEq, Repr

/-- One value of the broadcast-derived map `{blockNumber, txHash}` built by
`_get_broadcast_deployment_info`; either field may be `None`. -/
structure BroadcastEntry where
  blockNumber : Option Nat
  txHash : Option String
deriving DecidableEq, Repr

/-- An entry already present in `config_data['contracts']`: either the legacy
plain-address string format or the record format. -/
inductive ConfigEntry where
  | plainAddress (s : String)
  | record (r : ContractRecord)
deriving DecidableEq, Repr

/-- An entry of the ephemeral artifact's `contracts` map: either a plain
address string or a dict whose `address` key may be absent. -/
inductive LatestEntry where
  | plainAddress (s : String)
  | record (address : Option String)
deriving DecidableEq, Repr

/-- Address extraction from a latest-artifact entry (verifier.py lines
321-328): dict entries contribute `get('address')`, strings contribute
themselves; a missing or empty (falsy) address makes the loop `continue`. -/
def extractAddress : LatestEntry → Option String
  | .plainAddress s => if s = "" then none else some s
  | .record a =>
    match a with
    | some s => if s = "" then none else some s
    | none => none

/-- The merge of one contract of the artifact into the config's `contracts`
map (verifier.py lines 330-360): the broadcast info is looked up by lowercase
address; a `blockNumber`/`txHash` the broadcast cannot resolve falls back to
the existing entry's value when that entry is a record whose address matches
case-insensitively, and to `null` otherwise. -/
def mergeContractEntry (broadcast : List (String × BroadcastEntry))
    (existing : Option ConfigEntry) (contractAddress : String) : ContractRecord :=
  let deployInfo := (broadcast.lookup contractAddress.toLower).getD ⟨none, none⟩
  let existingAddress : Option String :=
    match existing with
    | some (.record r) => some r.address
    | _ => none
  let existingBlock : Option Nat :=
    match existing with
    | some (.record r) => r.blockNumber
    | _ => none
  let existingTx : Option String :=
    match existing with
    | some (.record r) => r.txHash
    | _ => none
  let sameAddress : Bool :=
    match existingAddress with
    | some a => a.toLower == contractAddress.toLower
    | none => false
  { address := contractAddress
    blockNumber :=
      match deployInfo.blockNumber with
      | some b => some b
      | none => if sameAddress then existingBlock else none
    txHash :=
      match deployInfo.txHash with
      | some t => some t
      | none => if sameAddress then existingTx else none }

/-- Claim C2: when the broadcast lookup resolves neither a block number nor a
transaction hash, the merged record preserves the existing record's
`blockNumber`/`txHash` whenever the existing record carries the same address,
and writes `null` for both whenever every existing record form has a
(case-insensitively) different address — in particular when the entry is
absent or in the legacy string format. -/
theorem merge_preserves_block_and_tx (broadcast : List (String × BroadcastEntry))
    (existing : Option ConfigEntry) (contractAddress : String)
    (hb : ((broadcast.lookup contractAddress.toLower).getD ⟨none, none⟩).blockNumber = none)
    (ht : ((broadcast.lookup contractAddress.toLower).getD ⟨none, none⟩).txHash = none) :
    (∀ r : ContractRecord, existing = some (.record r) →
      r.address.toLower = contractAddress.toLower →
      (mergeContractEntry broadcast existing contractAddress).blockNumber = r.blockNumber
      ∧ (mergeContractEntry broadcast existing contractAddress).txHash = r.txHash)
    ∧ ((∀ r : ContractRecord, existing = some (.record r) →
        r.address.toLower ≠ contractAddress.toLower) →
      (mergeContractEntry broadcast existing contractAddress).blockNumber = none
      ∧ (mergeContractEntry broadcast existing contractAddress).txHash = none) := by
  constructor
  · intro r hr haddr
    subst hr
    simp [mergeContractEntry, hb, ht, haddr]
  · intro hdiff
    rcases existing with _ | e
    · simp [mergeContractEntry, hb, ht]
    · rcases e with s | r
      · simp [mergeContractEntry, hb, ht]
      · have hne := hdiff r rfl
        simp only [mergeContractEntry, hb, ht]
        have : (r.address.toLower == contractAddress.toLower) = false := by
          simpa using hne
        simp [this]

/-- Witness for `merge_preserves_block_and_tx`: an empty broadcast map and an
existing record for the same address keep block `1000` and hash `0xAB`. -/
theorem merge_preserves_block_and_tx_witness :
    (mergeContractEntry []
        (some (.record ⟨"0xAA", some 1000, some "0xAB"⟩)) "0xAA").blockNumber = some 1000
    ∧ (mergeContractEntry []
        (some (.record ⟨"0xAA", some 1000, some "0xAB"⟩)) "0xAA").txHash = some "0xAB" :=
  (merge_preserves_block_and_tx []
    (some (.record ⟨"0xAA", some 1000, some "0xAB"⟩)) "0xAA" rfl rfl).1
    ⟨"0xAA", some 1000, some "0xAB"⟩ rfl rfl

/-! ### Full config merge (`ContractVerifier.update_network_config`) -/

/-- One entry of `config_data['deploymentInfo']`; every key may be absent. The
`strftime` rendering of the timestamp is abstracted: the field holds the epoch
seconds the code formats (`latest_stat.st_mtime`). -/
structure InfoEntry where
  gitCommit : Option String
  timestamp : Option Nat
  version : Option String
  startBlock : Option Nat
deriving DecidableEq, Repr

/-- Python dict assignment `d[key] = v` on a JSON object modelled as an
association list: replace in place, else append. -/
def setEntry {α : Type} : List (String × α) → String → α → List (String × α)
  | [], key, v => [(key, v)]
  | p :: rest, key, v =>
    if p.1 == key then (key, v) :: rest else p :: setEntry rest key v

/-- The merge loop over `latest_data['contracts']` (verifier.py lines
318-360): each artifact entry with a usable address overwrites the config's
entry for that name with the merged record; the existing entry is looked up in
the config as already mutated by earlier iterations. -/
def mergeContracts (broadcast : List (String × BroadcastEntry))
    (configContracts : List (String × ConfigEntry))
    (latestContracts : List (String × LatestEntry)) : List (String × ConfigEntry) :=
  latestContracts.foldl
    (fun cfg p =>
      match extractAddress p.2 with
      | none => cfg
      | some addr =>
        setEntry cfg p.1 (.record (mergeContractEntry broadcast (cfg.lookup p.1) addr)))
    configContracts

/-- The block numbers resolved from broadcast artifacts for this run
(verifier.py lines 399-414). -/
def deployedBlockNumbers (broadcast : List (String × BroadcastEntry))
    (latestContracts : List (String × LatestEntry)) : List Nat :=
  latestContracts.foldr
    (fun p acc =>
      match extractAddress p.2 with
      | none => acc
      | some addr =>
        match ((broadcast.lookup addr.toLower).getD ⟨none, none⟩).blockNumber with
        | some b => b :: acc
        | none => acc)
    []

/-- `release:sepolia` and `deploy:testnets` update the `deploy:full` entry
instead (verifier.py lines 371-374). -/
def effectiveStep (step : String) : String :=
  if step = "release:sepolia" || step = "deploy:testnets" then "deploy:full" else step

/-- `charPrefix pat l` holds when `pat` is a prefix of `l`. -/
def charPrefix : List Char → List Char → Bool
  | [], _ => true
  | _ :: _, [] => false
  | c :: cs, d :: ds => c == d && charPrefix cs ds

/-- Substring containment on character lists. -/
def charContainsSub (pat : List Char) : List Char → Bool
  | [] => pat.isEmpty
  | c :: rest => charPrefix pat (c :: rest) || charContainsSub pat rest

/-- The Python substring test `"deploy" in deployment_step`. -/
def containsDeploy (s : String) : Bool := charContainsSub "deploy".data s.data

/-- `os.environ.get("VERSION", "Null / NotSet")`. -/
def versionOrDefault (version : Option String) : String := version.getD "Null / NotSet"

/-- `del config_data['deploymentInfo']['deploy:adapters']` (lines 377-379). -/
def eraseAdapters (info : List (String × InfoEntry)) : List (String × InfoEntry) :=
  info.filter (fun p => !(p.1 == "deploy:adapters"))

/-- Mutation of one key of an `InfoEntry` under a step name, as Python's
`config_data['deploymentInfo'][step][key] = v`. -/
def updateField (info : List (String × InfoEntry)) (key : String)
    (f : InfoEntry → InfoEntry) : List (String × InfoEntry) :=
  setEntry info key (f ((info.lookup key).getD ⟨none, none, none, none⟩))

/-- The `deploymentInfo` update of `update_network_config` (verifier.py lines
363-425): for a step containing `"deploy"` the entry is replaced by
`{gitCommit, timestamp (artifact mtime), version}` after dropping any
`deploy:adapters` entry; the entry is then created if absent, its `version`
set from the `VERSION` environment variable, and `startBlock` written from the
artifact's `deploymentStartBlock` or, failing that, from outlier detection
over the broadcast-resolved block numbers (preserved unchanged when there are
none). -/
def updateDeploymentInfo (info0 : List (String × InfoEntry)) (argsStep : String)
    (gitCommit : String) (artifactMtime : Nat) (version : Option String)
    (deploymentStartBlock : Option Nat) (deployedBlocks : List Nat) :
    List (String × InfoEntry) :=
  let step := effectiveStep argsStep
  let info1 :=
    if containsDeploy step then
      setEntry (eraseAdapters info0) step
        ⟨some gitCommit, some artifactMtime, some (versionOrDefault version), none⟩
    else info0
  let info2 :=
    if (info1.lookup step).isNone then setEntry info1 step ⟨none, none, none, none⟩ else info1
  let info3 :=
    updateField info2 step (fun e => { e with version := some (versionOrDefault version) })
  match deploymentStartBlock with
  | some b => updateField info3 step (fun e => { e with startBlock := some b })
  | none =>
    match deployedBlocks with
    | [] => info3
    | _ :: _ =>
      match calculateStartBlockWithOutlierDetection deployedBlocks with
      | some sb => updateField info3 step (fun e => { e with startBlock := some sb })
      | none => info3

/-- A per-network config file: the `contracts` and `deploymentInfo` sections
(`network` metadata is never touched by the merge). -/
structure NetworkConfig where
  contracts : List (String × ConfigEntry)
  deploymentInfo : List (String × InfoEntry)
deriving DecidableEq, Repr

/-- The inputs of one `update_network_config` invocation. -/
structure MergeInputs where
  latestContracts : List (String × LatestEntry)
  deploymentStartBlock : Option Nat
  broadcast : List (String × BroadcastEntry)
  argsStep : String
  gitCommit : String
  artifactMtime : Nat
  version : Option String
deriving DecidableEq, Repr

/-- The fully merged config an entirely successful run writes to disk. -/
def mergedConfig (cfg : NetworkConfig) (inp : MergeInputs) : NetworkConfig :=
  { contracts := mergeContracts inp.broadcast cfg.contracts inp.latestContracts
    deploymentInfo :=
      updateDeploymentInfo cfg.deploymentInfo inp.argsStep inp.gitCommit
        inp.artifactMtime inp.version inp.deploymentStartBlock
        (deployedBlockNumbers inp.broadcast inp.latestContracts) }

/-- The contents of the network config file on disk: a parseable config or a
half-written, invalid file. -/
inductive FileState where
  | content (c : NetworkConfig)
  | halfWritten
deriving DecidableEq, Repr

/-- The on-disk state the merge manipulates: the config file and its `.bak`
sibling (absent when `none`). -/
structure Disk where
  configFile : FileState
  backupFile : Option FileState
deriving DecidableEq, Repr

/-- Which fallible operations of one `update_network_config` run succeed:
`gitOk` the `git rev-parse` call, `loadOk` the JSON loads and the merge
computation, `writeOk` the final `json.dump`. -/
structure MergeRun where
  gitOk : Bool
  loadOk : Bool
  writeOk : Bool
deriving DecidableEq, Repr

/-- The result of one merge run: the returned boolean, the final disk state,
and the successive disk states after the backup copy. -/
structure MergeExec where
  ok : Bool
  finalDisk : Disk
  trace : List Disk
deriving DecidableEq, Repr

/-- `ContractVerifier.update_network_config` (verifier.py lines 279-444) as a
disk-state transformer.  The backup copy (line 287) happens first; a failed
`git rev-parse` unlinks the backup and returns `False` with the config
untouched (lines 297-300); a caught exception before or during the final
write moves the backup over the config file (lines 438-444); on success the
merged config is written and the backup unlinked (lines 427-436). -/
def updateNetworkConfigExec (cfg : NetworkConfig) (inp : MergeInputs) (run : MergeRun) :
    MergeExec :=
  let afterBackup : Disk := ⟨.content cfg, some (.content cfg)⟩
  if !run.gitOk then
    ⟨false, ⟨.content cfg, none⟩, [afterBackup, ⟨.content cfg, none⟩]⟩
  else if !run.loadOk then
    ⟨false, ⟨.content cfg, none⟩, [afterBackup, ⟨.content cfg, none⟩]⟩
  else if !run.writeOk then
    ⟨false, ⟨.content cfg, none⟩,
      [afterBackup, ⟨.halfWritten, some (.content cfg)⟩, ⟨.content cfg, none⟩]⟩
  else
    ⟨true, ⟨.content (mergedConfig cfg inp), none⟩,
      [afterBackup, ⟨.content (mergedConfig cfg inp), some (.content cfg)⟩,
        ⟨.content (mergedConfig cfg inp), none⟩]⟩

/-- Claim C3: whatever fails after the backup is taken, the run ends with the
original config restored and failure reported; on success the merged config is
on disk; in both cases the backup is gone and the final config file is never
the half-written intermediate state. -/
theorem merge_never_leaves_config_torn (cfg : NetworkConfig) (inp : MergeInputs)
    (run : MergeRun) :
    ((updateNetworkConfigExec cfg inp run).ok = false →
      (updateNetworkConfigExec cfg inp run).finalDisk = ⟨.content cfg, none⟩)
    ∧ ((updateNetworkConfigExec cfg inp run).ok = true →
      (updateNetworkConfigExec cfg inp run).finalDisk
        = ⟨.content (mergedConfig cfg inp), none⟩)
    ∧ (updateNetworkConfigExec cfg inp run).trace.getLast?
        = some (updateNetworkConfigExec cfg inp run).finalDisk
    ∧ (updateNetworkConfigExec cfg inp run).finalDisk.configFile ≠ .halfWritten
    ∧ (updateNetworkConfigExec cfg inp run).finalDisk.backupFile = none := by
  rcases run with ⟨g, l, w⟩
  cases g <;> cases l <;> cases w <;>
    simp [updateNetworkConfigExec]

/-- Witness for `merge_never_leaves_config_torn` on an empty config, a merge
with no contracts, and a run whose final write fails. -/
theorem merge_never_leaves_config_torn_witness :
    (updateNetworkConfigExec ⟨[], []⟩ ⟨[], none, [], "verify", "c0ffee", 0, none⟩
        ⟨true, true, false⟩).ok = false
    ∧ (updateNetworkConfigExec ⟨[], []⟩ ⟨[], none, [], "verify", "c0ffee", 0, none⟩
        ⟨true, true, false⟩).finalDisk = ⟨.content ⟨[], []⟩, none⟩ :=
  ⟨by decide,
    (merge_never_leaves_config_torn ⟨[], []⟩ ⟨[], none, [], "verify", "c0ffee", 0, none⟩
      ⟨true, true, false⟩).1 (by decide)⟩

/-- Looking up the key just set finds the value just set. -/
theorem lookup_setEntry_self {α : Type} (l : List (String × α)) (k : String) (v : α) :
    (setEntry l k v).lookup k = some v := by
  induction l with
  | nil => simp [setEntry, List.lookup]
  | cons p rest ih =>
    by_cases h : p.1 = k
    · simp [setEntry, h, List.lookup]
    · have hb : (p.1 == k) = false := beq_eq_false_iff_ne.2 h
      have hb2 : (k == p.1) = false := beq_eq_false_iff_ne.2 (Ne.symm h)
      simp [setEntry, hb, hb2, List.lookup, ih]

/-- Looking up the key just mutated finds the mutated entry. -/
theorem lookup_updateField_self (info : List (String × InfoEntry)) (k : String)
    (f : InfoEntry → InfoEntry) :
    (updateField info k f).lookup k
      = some (f ((info.lookup k).getD ⟨none, none, none, none⟩)) :=
  lookup_setEntry_self _ _ _

/-- What `updateDeploymentInfo` leaves under the effective step: an entry
whose `version` is the `VERSION` environment value, carrying the git commit
and the artifact mtime whenever the step name contains `"deploy"`. -/
theorem lookup_updateDeploymentInfo (info0 : List (String × InfoEntry))
    (argsStep git : String) (mtime : Nat) (ver : Option String)
    (dsb : Option Nat) (blocks : List Nat) :
    ∃ e : InfoEntry,
      (updateDeploymentInfo info0 argsStep git mtime ver dsb blocks).lookup
          (effectiveStep argsStep) = some e
      ∧ e.version = some (versionOrDefault ver)
      ∧ (containsDeploy (effectiveStep argsStep) = true →
          e.gitCommit = some git ∧ e.timestamp = some mtime) := by
  unfold updateDeploymentInfo
  by_cases hd : containsDeploy (effectiveStep argsStep)
  · have h1 : (setEntry (eraseAdapters info0) (effectiveStep argsStep)
        (⟨some git, some mtime, some (versionOrDefault ver), none⟩ : InfoEntry)).lookup
          (effectiveStep argsStep)
        = some ⟨some git, some mtime, some (versionOrDefault ver), none⟩ :=
      lookup_setEntry_self _ _ _
    rcases dsb with _ | b
    · rcases blocks with _ | ⟨b0, bs⟩
      · exact ⟨⟨some git, some mtime, some (versionOrDefault ver), none⟩,
          by simp [hd, h1, updateField, lookup_setEntry_self], rfl, fun _ => ⟨rfl, rfl⟩⟩
      · rcases hc : calculateStartBlockWithOutlierDetection (b0 :: bs) with _ | sb
        · exact ⟨⟨some git, some mtime, some (versionOrDefault ver), none⟩,
            by simp [hd, h1, hc, updateField, lookup_setEntry_self], rfl,
            fun _ => ⟨rfl, rfl⟩⟩
        · exact ⟨⟨some git, some mtime, some (versionOrDefault ver), some sb⟩,
            by simp [hd, h1, hc, updateField, lookup_setEntry_self], rfl,
            fun _ => ⟨rfl, rfl⟩⟩
    · exact ⟨⟨some git, some mtime, some (versionOrDefault ver), some b⟩,
        by simp [hd, h1, updateField, lookup_setEntry_self], rfl, fun _ => ⟨rfl, rfl⟩⟩
  · rcases hl : info0.lookup (effectiveStep argsStep) with _ | e0
    · rcases dsb with _ | b
      · rcases blocks with _ | ⟨b0, bs⟩
        · exact ⟨⟨none, none, some (versionOrDefault ver), none⟩,
            by simp [hd, hl, updateField, lookup_setEntry_self], rfl, fun h => absurd h hd⟩
        · rcases hc : calculateStartBlockWithOutlierDetection (b0 :: bs) with _ | sb
          · exact ⟨⟨none, none, some (versionOrDefault ver), none⟩,
              by simp [hd, hl, hc, updateField, lookup_setEntry_self], rfl,
              fun h => absurd h hd⟩
          · exact ⟨⟨none, none, some (versionOrDefault ver), some sb⟩,
              by simp [hd, hl, hc, updateField, lookup_setEntry_self], rfl,
              fun h => absurd h hd⟩
      · exact ⟨⟨none, none, some (versionOrDefault ver), some b⟩,
          by simp [hd, hl, updateField, lookup_setEntry_self], rfl, fun h => absurd h hd⟩
    · rcases dsb with _ | b
      · rcases blocks with _ | ⟨b0, bs⟩
        · exact ⟨⟨e0.gitCommit, e0.timestamp, some (versionOrDefault ver), e0.startBlock⟩,
            by simp [hd, hl, updateField, lookup_setEntry_self], rfl, fun h => absurd h hd⟩
        · rcases hc : calculateStartBlockWithOutlierDetection (b0 :: bs) with _ | sb
          · exact ⟨⟨e0.gitCommit, e0.timestamp, some (versionOrDefault ver), e0.startBlock⟩,
              by simp [hd, hl, hc, updateField, lookup_setEntry_self], rfl,
              fun h => absurd h hd⟩
          · exact ⟨⟨e0.gitCommit, e0.timestamp, some (versionOrDefault ver), some sb⟩,
              by simp [hd, hl, hc, updateField, lookup_setEntry_self], rfl,
              fun h => absurd h hd⟩
      · exact ⟨⟨e0.gitCommit, e0.timestamp, some (versionOrDefault ver), some b⟩,
          by simp [hd, hl, updateField, lookup_setEntry_self], rfl, fun h => absurd h hd⟩

/-- Counterexample to claim C8 as stated: a successful merge with effective
step `deploy:full`, artifact mtime `0` and `VERSION=v3`, performed at any
other wall-clock instant (`86400` as witness), records timestamp `0` — the
artifact's modification time, not a wall-clock timestamp of the merge; and a
successful merge under the non-deploy step `verify` records no git commit and
no timestamp at all, only the version. -/
theorem deployment_info_claim_counterexample :
    (updateNetworkConfigExec ⟨[], []⟩ ⟨[], none, [], "deploy:full", "abc1234", 0, some "v3"⟩
        ⟨true, true, true⟩).ok = true
    ∧ (mergedConfig ⟨[], []⟩
        ⟨[], none, [], "deploy:full", "abc1234", 0, some "v3"⟩).deploymentInfo.lookup
          "deploy:full" = some ⟨some "abc1234", some 0, some "v3", none⟩
    ∧ (0 : Nat) ≠ 86400
    ∧ (mergedConfig ⟨[], []⟩
        ⟨[], none, [], "verify", "abc1234", 0, some "v3"⟩).deploymentInfo.lookup
          "verify" = some ⟨none, none, some "v3", none⟩ := by
  refine ⟨rfl, by decide, by decide, by decide⟩

/-- Claim C8 (amended): for every successful config merge, the
`deploymentInfo` entry for the effective step records the release version
(from the `VERSION` environment variable, defaulted when unset); when the
effective step name contains `"deploy"` it also records the current git
commit and a timestamp taken from the deployment artifact's modification
time — not the wall-clock time of the merge itself. -/
theorem deployment_info_records (cfg : NetworkConfig) (inp : MergeInputs) (run : MergeRun)
    (hok : (updateNetworkConfigExec cfg inp run).ok = true) :
    ∃ e : InfoEntry,
      (updateNetworkConfigExec cfg inp run).finalDisk.configFile
          = .content (mergedConfig cfg inp)
      ∧ (mergedConfig cfg inp).deploymentInfo.lookup (effectiveStep inp.argsStep) = some e
      ∧ e.version = some (versionOrDefault inp.version)
      ∧ (containsDeploy (effectiveStep inp.argsStep) = true →
          e.gitCommit = some inp.gitCommit ∧ e.timestamp = some inp.artifactMtime) := by
  have hrun : run = ⟨true, true, true⟩ := by
    rcases run with ⟨g, l, w⟩
    cases g <;> cases l <;> cases w <;> simp_all [updateNetworkConfigExec]
  subst hrun
  obtain ⟨e, he, hv, hdep⟩ := lookup_updateDeploymentInfo cfg.deploymentInfo inp.argsStep
    inp.gitCommit inp.artifactMtime inp.version inp.deploymentStartBlock
    (deployedBlockNumbers inp.broadcast inp.latestContracts)
  exact ⟨e, rfl, he, hv, hdep⟩

/-- Witness for `deployment_info_records` at a successful `deploy:full`
merge. -/
theorem deployment_info_records_witness :
    ∃ e : InfoEntry,
      (updateNetworkConfigExec ⟨[], []⟩
          ⟨[], none, [], "deploy:full", "abc1234", 7, some "v3"⟩
          ⟨true, true, true⟩).finalDisk.configFile
        = .content (mergedConfig ⟨[], []⟩
            ⟨[], none, [], "deploy:full", "abc1234", 7, some "v3"⟩)
      ∧ (mergedConfig ⟨[], []⟩
          ⟨[], none, [], "deploy:full", "abc1234", 7, some "v3"⟩).deploymentInfo.lookup
            (effectiveStep "deploy:full") = some e
      ∧ e.version = some (versionOrDefault (some "v3"))
      ∧ (containsDeploy (effectiveStep "deploy:full") = true →
          e.gitCommit = some "abc1234" ∧ e.timestamp = some 7) :=
  deployment_info_records ⟨[], []⟩ ⟨[], none, [], "deploy:full", "abc1234", 7, some "v3"⟩
    ⟨true, true, true⟩ rfl

/-! ### Release orchestration (`ReleaseManager`, release.py) -/

/-- The per-network step flags of the persisted deployment summary
(release.py lines 115-121). -/
structure NetworkState where
  protocol : Bool
  verification : Bool
  wiring : Bool
  testData : Bool
deriving DecidableEq, Repr

/-- The persisted release state: `version` plus the per-network states
(`started_at`/`completed_at`/`failed_at` play no role in the claims). -/
structure DeploymentSummary where
  version : Option String
  networks : List (String × NetworkState)
deriving DecidableEq, Repr

/-- Python truthiness of `deployment_summary.get("version")`: absent or the
empty string are falsy. -/
def optTruthy : Option String → Bool
  | none => false
  | some s => !(s == "")

/-- `ReleaseManager._is_network_complete` (release.py lines 290-301): a
network is complete iff present with all four step flags true. -/
def isNetworkComplete (s : DeploymentSummary) (network : String) : Bool :=
  match s.networks.lookup network with
  | none => false
  | some st => st.protocol && st.verification && st.wiring && st.testData

/-- The state-resolution prefix of `deploy_sepolia_testnets` (release.py
lines 48-76): clear the loaded state when its version is set and differs from
the requested one, then initialise a fresh summary whenever no version is
set. -/
def resolveInitialState (loaded : DeploymentSummary) (currentVersion : String) :
    DeploymentSummary :=
  let s :=
    if optTruthy loaded.version && !(loaded.version == some currentVersion) then
      (⟨none, []⟩ : DeploymentSummary)
    else loaded
  if !optTruthy s.version then { version := some currentVersion, networks := [] } else s

/-- Claim C4: when the persisted version is set and differs from the requested
one, the state is cleared and a fresh summary with the new version is created,
so every network is no longer complete. -/
theorem version_change_resets_state (loaded : DeploymentSummary) (v : String)
    (hset : optTruthy loaded.version = true) (hdiff : loaded.version ≠ some v) :
    resolveInitialState loaded v = ⟨some v, []⟩
    ∧ (∀ n : String, isNetworkComplete (resolveInitialState loaded v) n = false) := by
  have hb : (loaded.version == some v) = false := beq_eq_false_iff_ne.2 hdiff
  have hnone : optTruthy none = false := rfl
  have h : resolveInitialState loaded v = ⟨some v, []⟩ := by
    simp [resolveInitialState, hset, hb, hnone]
  exact ⟨h, fun n => by simp [h, isNetworkComplete, List.lookup]⟩

/-- Witness for `version_change_resets_state`: persisted version `v1` with
network `A` complete, invoked with version `v2`. -/
theorem version_change_resets_state_witness :
    resolveInitialState ⟨some "v1", [("A", ⟨true, true, true, true⟩)]⟩ "v2"
        = ⟨some "v2", []⟩
    ∧ (∀ n : String, isNetworkComplete
        (resolveInitialState ⟨some "v1", [("A", ⟨true, true, true, true⟩)]⟩ "v2") n
          = false) :=
  version_change_resets_state ⟨some "v1", [("A", ⟨true, true, true, true⟩)]⟩ "v2"
    (by decide) (by decide)

/-- Appending `--resume` to `forge_args` only when it is not already present
(release.py lines 209-211 and 228-229). -/
def addResume (args : List String) : List String :=
  if "--resume" ∈ args then args else args ++ ["--resume"]

/-- Observable outcome of one `_retry_deployment` call: the returned boolean,
the number of attempts run, the number of one-minute sleeps, the final shared
`forge_args`, and whether the step was marked complete in the summary. -/
structure RetryResult where
  success : Bool
  attemptsUsed : Nat
  sleeps : Nat
  forgeArgs : List String
  stepMarked : Bool
deriving DecidableEq, Repr

/-- The retry loop of `_retry_deployment` (release.py lines 213-233), with the
remaining attempt budget as fuel.  `outcome k` is the result of
`runner.run_deploy` on attempt `k` (1-based).  On a failure short of the
budget, `--resume` is appended (if absent) and one sleep is taken. -/
def retryGo (outcome : Nat → Bool) (args : List String) (attempt sleeps : Nat) :
    Nat → RetryResult
  | 0 => ⟨false, attempt, sleeps, args, false⟩
  | remaining + 1 =>
    if outcome (attempt + 1) then ⟨true, attempt + 1, sleeps, args, true⟩
    else if remaining > 0 then
      retryGo outcome (addResume args) (attempt + 1) (sleeps + 1) remaining
    else ⟨false, attempt + 1, sleeps, args, false⟩

/-- `ReleaseManager._retry_deployment` (release.py lines 193-233): a recent
broadcast file (`hasPartial`) pre-sets `--resume`, then up to three attempts
are made. -/
def retryDeployment (hasPartial : Bool) (outcome : Nat → Bool)
    (forgeArgs : List String) : RetryResult :=
  retryGo outcome (if hasPartial then addResume forgeArgs else forgeArgs) 0 0 3

/-- Claim C5: the retry wrapper returns false exactly when all three attempts
fail, in which case three attempts and two sleeps happened and the resume
marker is set; a first success at attempt `k` returns true after `k` attempts
and `k - 1` sleeps with the step marked complete and no further attempts; and
the resume marker is appended only when not already present. -/
theorem retry_returns_false_only_after_three_failures (hasPartial : Bool)
    (outcome : Nat → Bool) (args : List String) :
    ((retryDeployment hasPartial outcome args).success = false ↔
      outcome 1 = false ∧ outcome 2 = false ∧ outcome 3 = false)
    ∧ ((retryDeployment hasPartial outcome args).success = false →
      (retryDeployment hasPartial outcome args).attemptsUsed = 3
      ∧ (retryDeployment hasPartial outcome args).sleeps = 2
      ∧ "--resume" ∈ (retryDeployment hasPartial outcome args).forgeArgs)
    ∧ (outcome 1 = true →
      (retryDeployment hasPartial outcome args).success = true
      ∧ (retryDeployment hasPartial outcome args).attemptsUsed = 1
      ∧ (retryDeployment hasPartial outcome args).sleeps = 0
      ∧ (retryDeployment hasPartial outcome args).stepMarked = true)
    ∧ (outcome 1 = false → outcome 2 = true →
      (retryDeployment hasPartial outcome args).success = true
      ∧ (retryDeployment hasPartial outcome args).attemptsUsed = 2
      ∧ (retryDeployment hasPartial outcome args).sleeps = 1
      ∧ (retryDeployment hasPartial outcome args).stepMarked = true)
    ∧ (outcome 1 = false → outcome 2 = false → outcome 3 = true →
      (retryDeployment hasPartial outcome args).success = true
      ∧ (retryDeployment hasPartial outcome args).attemptsUsed = 3
      ∧ (retryDeployment hasPartial outcome args).sleeps = 2
      ∧ (retryDeployment hasPartial outcome args).stepMarked = true)
    ∧ (∀ l : List String, "--resume" ∈ l → addResume l = l) := by
  have haddmem : ∀ l : List String, "--resume" ∈ addResume l := by
    intro l
    by_cases h : "--resume" ∈ l <;> simp [addResume, h]
  refine ⟨?_, ?_, ?_, ?_, ?_, fun l h => by simp [addResume, h]⟩ <;>
  · by_cases h1 : outcome 1 <;> by_cases h2 : outcome 2 <;> by_cases h3 : outcome 3 <;>
      simp_all [retryDeployment, retryGo, haddmem]

/-- Witness for `retry_returns_false_only_after_three_failures` with every
attempt failing. -/
theorem retry_returns_false_only_after_three_failures_witness :
    (retryDeployment false (fun _ => false) []).attemptsUsed = 3
    ∧ (retryDeployment false (fun _ => false) []).sleeps = 2
    ∧ "--resume" ∈ (retryDeployment false (fun _ => false) []).forgeArgs :=
  (retry_returns_false_only_after_three_failures false (fun _ => false) []).2.1 (by decide)

/-- One of the four ordered per-network deployment steps. -/
inductive Step where
  | protocol | verification | wiring | testData
deriving DecidableEq, Repr

/-- The persisted completion flag for a step (release.py lines 133, 142, 151,
160). -/
def stepFlag (st : NetworkState) : Step → Bool
  | .protocol => st.protocol
  | .verification => st.verification
  | .wiring => st.wiring
  | .testData => st.testData

/-- The fixed step order of `_deploy_network`. -/
def stepOrder : List Step := [.protocol, .verification, .wiring, .testData]

/-- The step sequence of `_deploy_network` (release.py lines 102-170) over a
list of remaining steps: a step whose flag is already true is skipped; an
executed step that fails aborts immediately; `result s` is the outcome of the
retried executor for step `s`.  Returns the overall result and the list of
steps actually executed, in order. -/
def deployGo (st : NetworkState) (result : Step → Bool) : List Step → Bool × List Step
  | [] => (true, [])
  | s :: rest =>
    if stepFlag st s then deployGo st result rest
    else if result s then
      ((deployGo st result rest).1, s :: (deployGo st result rest).2)
    else (false, [s])

/-- `ReleaseManager._deploy_network` as a trace of executed steps. -/
def deployNetworkTrace (st : NetworkState) (result : Step → Bool) : Bool × List Step :=
  deployGo st result stepOrder

/-- The network loop of `deploy_sepolia_testnets` (release.py lines 81-93):
completed networks are skipped with no per-network work; a failed network
aborts the loop.  Returns, per network actually worked on, the steps
executed. -/
def releaseLoop (summary : DeploymentSummary) (result : String → Step → Bool) :
    List String → List (String × List Step)
  | [] => []
  | n :: rest =>
    if isNetworkComplete summary n then releaseLoop summary result rest
    else
      let st := (summary.networks.lookup n).getD ⟨false, false, false, false⟩
      if (deployNetworkTrace st (result n)).1 then
        (n, (deployNetworkTrace st (result n)).2) :: releaseLoop summary result rest
      else [(n, (deployNetworkTrace st (result n)).2)]

/-- Every step executed by `deployGo` had its completion flag false. -/
theorem stepFlag_false_of_mem_deployGo (st : NetworkState) (result : Step → Bool) :
    ∀ l : List Step, ∀ s : Step, s ∈ (deployGo st result l).2 → stepFlag st s = false := by
  intro l
  induction l with
  | nil => intro s hs; simp [deployGo] at hs
  | cons s0 rest ih =>
    intro s hs
    by_cases hf : stepFlag st s0
    · rw [deployGo, if_pos hf] at hs
      exact ih s hs
    · rw [deployGo, if_neg hf] at hs
      by_cases hr : result s0
      · rw [if_pos hr] at hs
        rcases List.mem_cons.1 hs with h | h
        · rw [h]; simpa using hf
        · exact ih s h
      · rw [if_neg hr] at hs
        rcases List.mem_singleton.1 hs with h
        rw [h]; simpa using hf

/-- A complete network is never worked on by the release loop. -/
theorem complete_network_not_in_releaseLoop (summary : DeploymentSummary)
    (result : String → Step → Bool) :
    ∀ networks : List String, ∀ n : String, isNetworkComplete summary n = true →
      ∀ tr : List Step, (n, tr) ∉ releaseLoop summary result networks := by
  intro networks
  induction networks with
  | nil => intro n _ tr h; simp [releaseLoop] at h
  | cons m rest ih =>
    intro n hc tr h
    by_cases hm : isNetworkComplete summary m
    · rw [releaseLoop, if_pos hm] at h
      exact ih n hc tr h
    · rw [releaseLoop, if_neg hm] at h
      by_cases hok : (deployNetworkTrace
          ((summary.networks.lookup m).getD ⟨false, false, false, false⟩) (result m)).1
      · rw [if_pos hok] at h
        rcases List.mem_cons.1 h with h' | h'
        · have : n = m := congrArg Prod.fst h'
          rw [this] at hc
          exact hm hc
        · exact ih n hc tr h'
      · rw [if_neg hok] at h
        rcases List.mem_singleton.1 h with h'
        have : n = m := congrArg Prod.fst h'
        rw [this] at hc
        exact hm hc

/-- Claim C6: with network `B` stuck at wiring (`protocol` and `verification`
persisted true), a re-invocation executes neither `protocol` nor
`verification` for `B` and starts directly at `wiring`; more generally no step
with a true flag is ever re-executed, and a fully complete network gets no
per-network work at all. -/
theorem resume_reattempts_only_failed_steps (result : Step → Bool)
    (summary : DeploymentSummary) (netResult : String → Step → Bool)
    (networks : List String) :
    (Step.protocol ∉ (deployNetworkTrace ⟨true, true, false, false⟩ result).2
      ∧ Step.verification ∉ (deployNetworkTrace ⟨true, true, false, false⟩ result).2
      ∧ (deployNetworkTrace ⟨true, true, false, false⟩ result).2.head? = some .wiring)
    ∧ (∀ st : NetworkState, ∀ s : Step, stepFlag st s = true →
        s ∉ (deployNetworkTrace st result).2)
    ∧ (∀ n : String, isNetworkComplete summary n = true →
        ∀ tr : List Step, (n, tr) ∉ releaseLoop summary netResult networks) := by
  refine ⟨⟨?_, ?_, ?_⟩, ?_, ?_⟩
  · intro h
    have := stepFlag_false_of_mem_deployGo ⟨true, true, false, false⟩ result stepOrder _ h
    simp [stepFlag] at this
  · intro h
    have := stepFlag_false_of_mem_deployGo ⟨true, true, false, false⟩ result stepOrder _ h
    simp [stepFlag] at this
  · by_cases hw : result .wiring <;>
      by_cases ht : result .testData <;>
        simp [deployNetworkTrace, deployGo, stepOrder, stepFlag, hw, ht]
  · intro st s hflag hmem
    have := stepFlag_false_of_mem_deployGo st result stepOrder s hmem
    rw [hflag] at this
    exact absurd this (by simp)
  · exact fun n hc tr => complete_network_not_in_releaseLoop summary netResult networks n hc tr

/-- Witness for `resume_reattempts_only_failed_steps`: network `A` complete in
the summary never appears in the loop's work list. -/
theorem resume_reattempts_only_failed_steps_witness :
    ∀ tr : List Step,
      ("A", tr) ∉ releaseLoop ⟨some "v1", [("A", ⟨true, true, true, true⟩)]⟩
        (fun _ _ => true) ["A", "B"] :=
  fun tr =>
    (resume_reattempts_only_failed_steps (fun _ => true)
      ⟨some "v1", [("A", ⟨true, true, true, true⟩)]⟩ (fun _ _ => true) ["A", "B"]).2.2
      "A" (by decide) tr

/-! ### Staleness guard and verification result
(`verify_contracts` / `_is_deployment_old`) -/

/-- Whitespace for the model of Python's `str.strip`. -/
def isSpaceChar (c : Char) : Bool := c == ' ' || c == '\t' || c == '\n' || c == '\r'

/-- The model of `input(...).strip().lower()` applied to one operator
response. -/
def normalizeChoice (s : String) : String :=
  ⟨(((s.data.dropWhile isSpaceChar).reverse.dropWhile isSpaceChar).reverse).map Char.toLower⟩

/-- The confirmation prompt loop of `_is_deployment_old` (verifier.py lines
519-530) over the queue of operator responses: `y`/`yes` proceeds (returns
`false` = not old), `n`/`no`/empty skips (returns `true`), anything else asks
again; exhausting the queue is the `EOFError` path, which skips. -/
def promptDecision : List String → Bool
  | [] => true
  | c :: rest =>
    let choice := normalizeChoice c
    if choice == "y" || choice == "yes" then false
    else if choice == "n" || choice == "no" || choice == "" then true
    else promptDecision rest

/-- `ContractVerifier._is_deployment_old` (verifier.py lines 503-530): fresh
artifacts (younger than 86400 seconds) are never old; for older artifacts the
operator is prompted. -/
def isDeploymentOld (ageSeconds : Nat) (responses : List String) : Bool :=
  if ageSeconds < 86400 then false else promptDecision responses

/-- The observable outcome of one `verify_contracts` run: the returned
boolean, whether `update_network_config` was invoked, its result when it was,
and the resulting network config file. -/
structure VerifyExec where
  result : Bool
  mergeAttempted : Bool
  mergeOk : Option Bool
  configFile : FileState
deriving DecidableEq, Repr

/-- The decision tail of `ContractVerifier.verify_contracts` (verifier.py
lines 163-212): in dry-run mode the checks are skipped and `True` returned;
with some contract undeployed or unverified (`allPassed = false`) it returns
`False` without touching the config; with all checks passed an old artifact
skips the merge and returns `True`; otherwise `update_network_config` runs and
its return value is discarded — `True` is returned regardless. -/
def verifyContractsExec (dryRun allPassed : Bool) (ageSeconds : Nat)
    (responses : List String) (cfg : NetworkConfig) (inp : MergeInputs) (run : MergeRun) :
    VerifyExec :=
  if dryRun then ⟨true, false, none, .content cfg⟩
  else if !allPassed then ⟨false, false, none, .content cfg⟩
  else if isDeploymentOld ageSeconds responses then ⟨true, false, none, .content cfg⟩
  else
    ⟨true, true, some (updateNetworkConfigExec cfg inp run).ok,
      (updateNetworkConfigExec cfg inp run).finalDisk.configFile⟩

/-- A response queue with no explicit confirmation always resolves the prompt
to "skip". -/
theorem promptDecision_true_of_no_yes : ∀ responses : List String,
    (∀ r ∈ responses, normalizeChoice r ≠ "y" ∧ normalizeChoice r ≠ "yes") →
    promptDecision responses = true := by
  intro responses
  induction responses with
  | nil => intro _; rfl
  | cons c rest ih =>
    intro h
    obtain ⟨hy, hyes⟩ := h c (List.mem_cons_self c rest)
    have hy' : (normalizeChoice c == "y") = false := beq_eq_false_iff_ne.2 hy
    have hyes' : (normalizeChoice c == "yes") = false := beq_eq_false_iff_ne.2 hyes
    rw [promptDecision]
    simp only [hy', hyes', Bool.or_self, Bool.false_eq_true, if_false]
    split
    · rfl
    · exact ih (fun r hr => h r (List.mem_cons_of_mem _ hr))

/-- Claim C7: with every contract check passed but an artifact at least
86400 seconds old and an operator who never explicitly confirms, the merge is
skipped, `True` is still returned, and the network config file is left
byte-for-byte unchanged. -/
theorem stale_artifact_leaves_config_unchanged (age : Nat) (responses : List String)
    (cfg : NetworkConfig) (inp : MergeInputs) (run : MergeRun)
    (hage : 86400 ≤ age)
    (hnoyes : ∀ r ∈ responses, normalizeChoice r ≠ "y" ∧ normalizeChoice r ≠ "yes") :
    verifyContractsExec false true age responses cfg inp run
      = ⟨true, false, none, .content cfg⟩ := by
  have hold : isDeploymentOld age responses = true := by
    rw [isDeploymentOld, if_neg (by omega)]
    exact promptDecision_true_of_no_yes responses hnoyes
  simp [verifyContractsExec, hold]

/-- Witness for `stale_artifact_leaves_config_unchanged`: a 25-hour-old
artifact (90000 seconds) and an operator giving no input. -/
theorem stale_artifact_leaves_config_unchanged_witness :
    verifyContractsExec false true 90000 [] ⟨[], []⟩
        ⟨[], none, [], "verify", "c0ffee", 0, none⟩ ⟨true, true, true⟩
      = ⟨true, false, none, .content ⟨[], []⟩⟩ :=
  stale_artifact_leaves_config_unchanged 90000 [] ⟨[], []⟩
    ⟨[], none, [], "verify", "c0ffee", 0, none⟩ ⟨true, true, true⟩
    (by omega) (by simp)

/-- Claim C9: with all checks passed, no dry-run and a fresh artifact,
`verify_contracts` attempts the merge but returns `True` whatever the merge
returns — in particular a failed `update_network_config` does not change the
step's `True` result. -/
theorem verify_result_independent_of_merge (age : Nat) (responses : List String)
    (cfg : NetworkConfig) (inp : MergeInputs) (run : MergeRun) (hfresh : age < 86400) :
    (verifyContractsExec false true age responses cfg inp run).result = true
    ∧ (verifyContractsExec false true age responses cfg inp run).mergeAttempted = true
    ∧ ((updateNetworkConfigExec cfg inp run).ok = false →
        (verifyContractsExec false true age responses cfg inp run).result = true) := by
  have hold : isDeploymentOld age responses = false := by
    rw [isDeploymentOld, if_pos hfresh]
  simp [verifyContractsExec, hold]

/-- Witness for `verify_result_independent_of_merge`: a fresh artifact and a
merge run whose git call fails (so the merge returns `False`), with the
verification result still `True`. -/
theorem verify_result_independent_of_merge_witness :
    (verifyContractsExec false true 0 [] ⟨[], []⟩
        ⟨[], none, [], "verify", "c0ffee", 0, none⟩ ⟨false, true, true⟩).result = true
    ∧ (verifyContractsExec false true 0 [] ⟨[], []⟩
        ⟨[], none, [], "verify", "c0ffee", 0, none⟩ ⟨false, true, true⟩).mergeAttempted
          = true
    ∧ ((updateNetworkConfigExec ⟨[], []⟩ ⟨[], none, [], "verify", "c0ffee", 0, none⟩
          ⟨false, true, true⟩).ok = false →
        (verifyContractsExec false true 0 [] ⟨[], []⟩
          ⟨[], none, [], "verify", "c0ffee", 0, none⟩ ⟨false, true, true⟩).result = true) :=
  verify_result_independent_of_merge 0 [] ⟨[], []⟩
    ⟨[], none, [], "verify", "c0ffee", 0, none⟩ ⟨false, true, true⟩ (by decide)

/-! ### Resume-marker persistence across steps -/

/-- The resume marker is always present after `addResume`. -/
theorem mem_addResume (l : List String) : "--resume" ∈ addResume l := by
  by_cases h : "--resume" ∈ l <;> simp [addResume, h]

/-- The retry loop never removes the resume marker from `forge_args`. -/
theorem resume_mem_retryGo (oc : Nat → Bool) :
    ∀ fuel args attempt sleeps, "--resume" ∈ args →
      "--resume" ∈ (retryGo oc args attempt sleeps fuel).forgeArgs := by
  intro fuel
  induction fuel with
  | zero => intro args a s h; simpa [retryGo] using h
  | succ n ih =>
    intro args a s h
    rw [retryGo]
    by_cases ho : oc (a + 1)
    · simpa [ho] using h
    · by_cases hn : n > 0
      · simp only [ho, Bool.false_eq_true, if_false, hn, if_true]
        exact ih _ _ _ (mem_addResume args)
      · simpa [ho, hn] using h

/-- The sequence of deployment steps of one process run as `_retry_deployment`
executes them, threading the shared mutable `self.args.forge_args` from step
to step; per step, the `forge_args` its first attempt runs with is
recorded. -/
def runSteps : List (Bool × (Nat → Bool)) → List String → List (List String)
  | [], _ => []
  | (hp, oc) :: rest, args =>
    (if hp then addResume args else args)
      :: runSteps rest (retryGo oc (if hp then addResume args else args) 0 0 3).forgeArgs

/-- Claim C10: the resume marker enters `forge_args` on a detected partial
deployment or on any failed attempt, is never removed by the retry loop, and
once present every subsequent step of the process run executes with it,
whether or not that step ever fails. -/
theorem resume_marker_persists (oc : Nat → Bool) (args : List String)
    (hasPartial : Bool) (steps : List (Bool × (Nat → Bool))) :
    "--resume" ∈ (retryDeployment true oc args).forgeArgs
    ∧ (oc 1 = false → "--resume" ∈ (retryDeployment hasPartial oc args).forgeArgs)
    ∧ (∀ fuel attempt sleeps l, "--resume" ∈ l →
        "--resume" ∈ (retryGo oc l attempt sleeps fuel).forgeArgs)
    ∧ ("--resume" ∈ args → ∀ l ∈ runSteps steps args, "--resume" ∈ l) := by
  refine ⟨?_, ?_, fun fuel a s l h => resume_mem_retryGo oc fuel l a s h, ?_⟩
  · exact resume_mem_retryGo oc 3 _ 0 0 (mem_addResume args)
  · intro h1
    rw [retryDeployment, retryGo]
    simp only [Nat.zero_add, h1, Bool.false_eq_true, if_false]
    norm_num
    exact resume_mem_retryGo oc 2 _ 1 1 (mem_addResume _)
  · clear hasPartial
    induction steps generalizing args with
    | nil => intro _ l hl; simp [runSteps] at hl
    | cons p rest ih =>
      intro h l hl
      rcases p with ⟨hp, oc0⟩
      rw [runSteps] at hl
      have hstart : "--resume" ∈ (if hp then addResume args else args) := by
        by_cases hhp : hp <;> simp [hhp, mem_addResume, h]
      rcases List.mem_cons.1 hl with h' | h'
      · rw [h']; exact hstart
      · exact ih _ (resume_mem_retryGo oc0 3 _ 0 0 hstart) l h'

/-- Witness for `resume_marker_persists`: a first failed attempt places the
marker, and a later step that never fails still starts with it. -/
theorem resume_marker_persists_witness :
    "--resume" ∈ (retryDeployment false (fun k => k ≠ 1) []).forgeArgs
    ∧ ("--resume" ∈ (["--resume"] : List String) →
        ∀ l ∈ runSteps [(false, fun _ => true)] ["--resume"], "--resume" ∈ l) :=
  ⟨(resume_marker_persists (fun k => k ≠ 1) [] false []).2.1 (by decide),
    (resume_marker_persists (fun _ => true) ["--resume"] false
      [(false, fun _ => true)]).2.2.2⟩

end Centrifuge
